import Mathlib

/-!
Verification of the 102shows core: the APA102 SPI protocol driver
(`server/drivers/apa102.py`) and the ColorCycle animation scheduler
(`server/lightshows/templates/colorcycle.py`), together with the
parameter validators (`server/lightshows/utilities/verifyparameters.py`).

The Python sources are shallowly embedded: pure functions become Lean
functions over `ℤ`/`ℕ`/`ℚ`/`List`, the SPI bus is modelled by the list of
bytes pushed onto it, exceptions become `Except`/`Option` error values,
and the scheduler's `run` loop becomes a terminating recursion that
records the trace of hook invocations and bus flushes as a list of
events.
-/

namespace APA102

/-- Banker's rounding on rationals, modelling Python 3's built-in `round`
(round half to even).  The source computes `round(brightness / 100 * 31)`
in floating point; for every integer brightness the exact rational value
`brightness * 31 / 100` is at distance at least `1/100` from every
half-integer except at brightness 50, where it is exactly `15.5` (a value
IEEE doubles represent exactly because `50 / 100 = 0.5` and `0.5 * 31 =
15.5` are exact), so on the documented range the float computation and
this exact rational rounding agree. -/
def pyRound (q : ℚ) : ℤ :=
  let f : ℤ := ⌊q⌋
  if q - f < 1/2 then f
  else if 1/2 < q - f then f + 1
  else if f % 2 = 0 then f else f + 1

/-- Embedding of `APA102.led_prefix` (apa102.py, lines 91-108):
`brightness_byte = round(brightness / 100 * 31)`;
`prefix_byte = (brightness_byte & 0b00011111) | 0b11100000`.
Python's `&` and `|` on arbitrary integers are two's-complement bitwise
operations, which is exactly `Int.land` / `Int.lor`. -/
def led_prefix (brightness : ℤ) : ℤ :=
  let brightness_byte : ℤ := pyRound ((brightness : ℚ) / 100 * 31)
  let prefix_byte : ℤ := Int.lor (Int.land brightness_byte 0b00011111) 0b11100000
  prefix_byte

/-- The prefix-byte formula as the spec states it (`§6`):
`prefix_byte = 0b11100000 | (round(brightness*31/100) & 0b00011111)`,
with the same rounding convention.  Kept as a separate definition so the
claim "the code's prefix equals the spec's formula" is a real refinement
statement. -/
def spec_prefix_byte (brightness : ℤ) : ℤ :=
  Int.lor 0b11100000 (Int.land (pyRound ((brightness : ℚ) * 31 / 100)) 0b00011111)

/-- Embedding of `APA102.assemble_spi_message` (apa102.py, lines 63-89):
for `led_num` in `range(len(color_buffer))` append
`[led_prefix(brightness_buffer[led_num]), blue, green, red]` where
`red, green, blue = color_buffer[led_num]`.  List indexing is embedded
with `getD` (the claims only quantify over in-range indices, where the
default is never consulted). -/
def assemble_spi_message (color_buffer : List (ℤ × ℤ × ℤ)) (brightness_buffer : List ℤ) :
    List ℤ :=
  (List.range color_buffer.length).flatMap fun led_num =>
    let prefix_byte := led_prefix (brightness_buffer.getD led_num 0)
    let red := (color_buffer.getD led_num (0, 0, 0)).1
    let green := (color_buffer.getD led_num (0, 0, 0)).2.1
    let blue := (color_buffer.getD led_num (0, 0, 0)).2.2
    [prefix_byte, blue, green, red]

/-- Embedding of `APA102.clock_start_frame` (apa102.py): `self.spi.xfer2([0] * 4)`. -/
def clock_start_frame : List ℤ :=
  List.replicate 4 0

/-- Embedding of `APA102.clock_end_frame` (apa102.py, lines 119-140):
`for _ in range((self.num_leds + 15) // 16): self.spi.xfer2([0x00])`. -/
def clock_end_frame (num_leds : ℕ) : List ℤ :=
  (List.range ((num_leds + 15) / 16)).flatMap fun _ => [0x00]

/-- The driver's buffered state: the Frame Buffer (`color_buffer`,
`brightness_buffer`) plus the fixed strip length `num_leds`. -/
structure StripState where
  color_buffer : List (ℤ × ℤ × ℤ)
  brightness_buffer : List ℤ
  num_leds : ℕ
  deriving DecidableEq

/-- Embedding of `APA102.show` (apa102.py, lines 110-117): clock out the
start frame, the assembled SPI message and the end frame.  The result is
the (unchanged, `show` only reads the buffers) driver state paired with
the bytes pushed onto the SPI bus by this call. -/
def «show» (st : StripState) : StripState × List ℤ :=
  (st,
    clock_start_frame
      ++ assemble_spi_message st.color_buffer st.brightness_buffer
      ++ clock_end_frame st.num_leds)

/-- An operation on the SPI device handle, used to record what bus I/O
`initialize_strip_connection` performs. -/
inductive SpiOp
  | open_port (bus cs : ℕ)
  | set_max_speed_hz (hz : ℕ)
  deriving DecidableEq

/-- Embedding of `APA102.initialize_strip_connection` (apa102.py, lines
48-57): raise on `num_leds > 1024`, otherwise open SPI port 0 slave 1 and
set the clock rate.  The result is the list of bus operations performed
paired with the raised error, if any; the LED-count check precedes all
bus I/O, so on failure the operation list is empty. -/
def initialize_strip_connection (num_leds : ℕ) (max_clock_speed_hz : ℕ) :
    List SpiOp × Option String :=
  if num_leds > 1024 then
    ([], some "The APA102 LED driver does not support strips of more than 1024 LEDs")
  else
    ([SpiOp.open_port 0 1, SpiOp.set_max_speed_hz max_clock_speed_hz], none)

end APA102

namespace ColorCycle

/-- A Python value as far as the validators in verifyparameters.py can
distinguish them: `type(v)` is `int`, `float`, `bool` or something else;
`float("inf")` (the default `num_cycles`) is a `float` that compares
greater than every number. -/
inductive PyVal
  | int (n : ℤ)
  | float (q : ℚ)
  | float_inf
  | bool (b : Bool)
  | str (s : String)
  deriving DecidableEq

/-- Does `type(testing) in (float, int)` hold? (`bool` is its own type in
this model, matching `type(True) is not int` in the source's check). -/
def is_number : PyVal → Bool
  | PyVal.int _ => true
  | PyVal.float _ => true
  | PyVal.float_inf => true
  | _ => false

/-- Does `type(testing) is int` hold? -/
def is_int_type : PyVal → Bool
  | PyVal.int _ => true
  | _ => false

/-- The comparison `testing < 0` for numeric values (only consulted after
the type check, short-circuited exactly as in the source). -/
def num_lt_zero : PyVal → Bool
  | PyVal.int n => decide (n < 0)
  | PyVal.float q => decide (q < 0)
  | _ => false

/-- The comparison `testing <= 0` for int values. -/
def num_le_zero : PyVal → Bool
  | PyVal.int n => decide (n ≤ 0)
  | _ => false

/-- Embedding of `verify.not_negative_numeric` (verifyparameters.py):
`if type(testing) not in (float, int) or testing < 0: raise
InvalidParameters(debug_str)`. -/
def not_negative_numeric (testing : PyVal) (param_name : Option String) :
    Except String Unit :=
  if !(is_number testing) || num_lt_zero testing then
    Except.error
      (match param_name with
        | some name => "Parameter \"" ++ name ++ "\" must be a non-negative number!"
        | none => "Parameter must be a not-negative number!")
  else
    Except.ok ()

/-- Embedding of `verify.positive_integer` (verifyparameters.py):
`if type(testing) is not int or testing <= 0: raise
InvalidParameters(debug_str)`. -/
def positive_integer (testing : PyVal) (param_name : Option String) :
    Except String Unit :=
  if !(is_int_type testing) || num_le_zero testing then
    Except.error
      (match param_name with
        | some name => "Parameter \"" ++ name ++ "\" must be a positive integer!"
        | none => "Parameter must be a positive integer!")
  else
    Except.ok ()

/-- Modelled from the spec: `InvalidParameters.unknown` is raised by
`set_parameter` for an unrecognized parameter name.  It is defined in
`lightshows/templates/base.py`, which is not among the analysed sources;
the spec (`§4.2`) only requires the resulting InvalidParameterError to
name the offending parameter, which this message does. -/
def InvalidParameters_unknown (param_name : String) : String :=
  "Unknown parameter \"" ++ param_name ++ "\""

/-- The scheduler's configurable parameters.  Each field is `none` when
the attribute is Python `None` and `some v` when it holds value `v`. -/
structure Params where
  pause_sec : Option PyVal
  num_steps_per_cycle : Option PyVal
  num_cycles : Option PyVal
  deriving DecidableEq

/-- Embedding of `ColorCycle.init_parameters` (colorcycle.py, lines
23-28): `pause_sec = 0`, `num_steps_per_cycle = None`,
`num_cycles = float("inf")`. -/
def init_parameters : Params :=
  { pause_sec := some (PyVal.int 0)
    num_steps_per_cycle := none
    num_cycles := some PyVal.float_inf }

/-- Embedding of `ColorCycle.set_parameter` (colorcycle.py, lines 30-41):
dispatch on the parameter name, validate, store; unknown names raise
`InvalidParameters.unknown(param_name)`. -/
def set_parameter (p : Params) (param_name : String) (value : PyVal) :
    Except String Params :=
  if param_name = "pause_sec" then
    match not_negative_numeric value (some param_name) with
    | Except.error e => Except.error e
    | Except.ok _ => Except.ok { p with pause_sec := some value }
  else if param_name = "num_steps_per_cycle" then
    match positive_integer value (some param_name) with
    | Except.error e => Except.error e
    | Except.ok _ => Except.ok { p with num_steps_per_cycle := some value }
  else if param_name = "num_cycles" then
    match positive_integer value (some param_name) with
    | Except.error e => Except.error e
    | Except.ok _ => Except.ok { p with num_cycles := some value }
  else
    Except.error (InvalidParameters_unknown param_name)

/-- Embedding of `ColorCycle.check_runnable` (colorcycle.py, lines
43-50): raise `InvalidParameters` naming the first of `pause_sec`,
`num_steps_per_cycle`, `num_cycles` that is `None`. -/
def check_runnable (p : Params) : Except String Unit :=
  if p.pause_sec = none then
    Except.error "Missing parameter \"pause_sec\"!"
  else if p.num_steps_per_cycle = none then
    Except.error "Missing parameter \"num_steps_per_cycle\"!"
  else if p.num_cycles = none then
    Except.error "Missing parameter \"num_cycles\"!"
  else
    Except.ok ()

/-- One observable action of `ColorCycle.run` (colorcycle.py, lines
82-97): the hook calls, the bus flushes and the pacing sleeps, in the
order the loop performs them. -/
inductive Event
  | before_start
  | strip_show
  | update (current_step : ℕ) (current_cycle : ℕ)
  | sleep
  | shutdown
  | sync_up
  deriving DecidableEq

/-- The inner `for currentStep in range(self.num_steps_per_cycle)` loop of
`ColorCycle.run`: call `update(currentStep, current_cycle)` (the hook may
raise, modelled by `Except.error`), call `strip.show()` if the hook asks
for a repaint, then `time.sleep(pause_sec)`.  Returns the event trace and
the propagated exception, if any; an exception aborts the remaining
steps. -/
def runSteps (update_hook : ℕ → ℕ → Except String Bool) (current_cycle : ℕ) :
    List ℕ → List Event × Option String
  | [] => ([], none)
  | currentStep :: rest =>
    match update_hook currentStep current_cycle with
    | Except.error e => ([Event.update currentStep current_cycle], some e)
    | Except.ok need_repaint =>
      let r := runSteps update_hook current_cycle rest
      (Event.update currentStep current_cycle ::
        ((if need_repaint then [Event.strip_show] else []) ++ Event.sleep :: r.1), r.2)

/-- The outer `while True` loop of `ColorCycle.run`, entered with
`current_cycle = 0`: run one cycle of steps, increment the cycle counter,
and break when `current_cycle >= num_cycles` or the stop flag is set.
`stop_show c` is the value of the externally mutable `__stop_show` flag
at the moment of the boundary check following cycle `c` — the only
program point where the source consults it.  The model takes the finite
`num_cycles : ℕ` set through `set_parameter` (the `float("inf")` default
makes the source loop forever, which a terminating embedding cannot and
the claims do not exercise). -/
def runLoop (update_hook : ℕ → ℕ → Except String Bool) (num_steps_per_cycle num_cycles : ℕ)
    (stop_show : ℕ → Bool) (current_cycle : ℕ) : List Event × Option String :=
  match runSteps update_hook current_cycle (List.range num_steps_per_cycle) with
  | (evs, some e) => (evs, some e)
  | (evs, none) =>
    if h : num_cycles ≤ current_cycle + 1 ∨ stop_show current_cycle = true then
      (evs, none)
    else
      let r := runLoop update_hook num_steps_per_cycle num_cycles stop_show (current_cycle + 1)
      (evs ++ r.1, r.2)
termination_by num_cycles - current_cycle
decreasing_by push_neg at h; omega

/-- Embedding of `ColorCycle.run` (colorcycle.py, lines 82-97):
`before_start()`, an initial `strip.show()`, the cycle loop, and — only
on normal loop exit — `cleanup()`, i.e. `shutdown()` followed by
`strip.sync_up()`.  A hook exception skips the cleanup and is returned to
the caller. -/
def run (update_hook : ℕ → ℕ → Except String Bool) (num_steps_per_cycle num_cycles : ℕ)
    (stop_show : ℕ → Bool) : List Event × Option String :=
  let r := runLoop update_hook num_steps_per_cycle num_cycles stop_show 0
  match r.2 with
  | some e => (Event.before_start :: Event.strip_show :: r.1, some e)
  | none =>
    (Event.before_start :: Event.strip_show :: (r.1 ++ [Event.shutdown, Event.sync_up]), none)

/-- The `(current_step, current_cycle)` arguments of the `update` calls
in an event trace, in order. -/
def updatesOf (events : List Event) : List (ℕ × ℕ) :=
  events.filterMap fun e =>
    match e with
    | Event.update s c => some (s, c)
    | _ => none

end ColorCycle

namespace APA102

theorem int_land_ofNat (m n : ℕ) : Int.land (Int.ofNat m) (Int.ofNat n) = Int.ofNat (m &&& n) :=
  rfl

theorem int_land_negSucc (m n : ℕ) :
    Int.land (Int.negSucc m) (Int.ofNat n) = Int.ofNat (Nat.ldiff n m) :=
  rfl

theorem int_lor_ofNat (m n : ℕ) : Int.lor (Int.ofNat m) (Int.ofNat n) = Int.ofNat (m ||| n) :=
  rfl

theorem nat_and_31 (k : ℕ) (h : k < 32) : k &&& 31 = k := by
  have h31 : (31 : ℕ) = 2 ^ 5 - 1 := by norm_num
  have h5 : k < 2 ^ 5 := by norm_num at h ⊢; omega
  rw [h31, Nat.and_pow_two_sub_one_of_lt_two_pow h5]

theorem nat_or_224 (k : ℕ) (h : k < 32) : k ||| 224 = 224 + k := by
  have h224 : (224 : ℕ) = 2 ^ 5 * 7 := by norm_num
  have h5 : k < 2 ^ 5 := by norm_num at h ⊢; omega
  rw [Nat.or_comm, h224, ← Nat.mul_add_lt_is_or h5]

theorem ldiff_31_lt (m : ℕ) : Nat.ldiff 31 m < 32 := by
  have h : (32 : ℕ) = 2 ^ 5 := by norm_num
  rw [h]
  apply Nat.lt_pow_two_of_testBit
  intro i hi
  rw [Nat.testBit_ldiff]
  have h31 : Nat.testBit 31 i = false := by
    apply Nat.testBit_lt_two_pow
    calc (31 : ℕ) < 2 ^ 5 := by norm_num
    _ ≤ 2 ^ i := Nat.pow_le_pow_right (by norm_num) hi
  simp [h31]

/-- Masking any integer with the 5-bit mask lands in `0..31` (Python `&`
on negative ints is two's-complement, i.e. `Int.land`). -/
theorem land_31_bounded (x : ℤ) : ∃ k : ℕ, k < 32 ∧ Int.land x 31 = Int.ofNat k := by
  cases x with
  | ofNat n =>
    refine ⟨n &&& 31, ?_, by rw [show (31 : ℤ) = Int.ofNat 31 from rfl, int_land_ofNat]⟩
    have h := Nat.and_lt_two_pow n (show (31 : ℕ) < 2 ^ 5 by norm_num)
    norm_num at h
    exact h
  | negSucc n =>
    exact ⟨Nat.ldiff 31 n, ldiff_31_lt n,
      by rw [show (31 : ℤ) = Int.ofNat 31 from rfl, int_land_negSucc]⟩

/-- Every prefix byte decomposes as `224 + k` with `k < 32`. -/
theorem led_prefix_decomp (b : ℤ) :
    ∃ k : ℕ, k < 32 ∧ led_prefix b = Int.ofNat (224 + k) := by
  obtain ⟨k, hk, hland⟩ := land_31_bounded (pyRound ((b : ℚ) / 100 * 31))
  refine ⟨k, hk, ?_⟩
  simp only [ led_prefix]
  rw [show (0b00011111 : ℤ) = (31 : ℤ) from rfl, hland,
    show (0b11100000 : ℤ) = Int.ofNat 224 from rfl, int_lor_ofNat, nat_or_224 k hk]

/-- C10: for every integer brightness input, in range or not, the prefix
byte lies in `[224, 255]` and has its top three bits set (for a byte
value `v` that is exactly `v / 32 = 7`): the 5-bit mask and the fixed
`0b11100000` marker force a structurally valid prefix byte. -/
theorem led_prefix_range_invariant (b : ℤ) :
    224 ≤ led_prefix b ∧ led_prefix b ≤ 255 ∧ led_prefix b / 32 = 7 := by
  obtain ⟨k, hk, h⟩ := led_prefix_decomp b
  rw [h, show Int.ofNat (224 + k) = ((224 + k : ℕ) : ℤ) from rfl]
  refine ⟨by exact_mod_cast Nat.le_add_right 224 k,
    by exact_mod_cast (by omega : 224 + k ≤ 255), ?_⟩
  push_cast
  omega

theorem pyRound_zero : pyRound 0 = 0 := by norm_num [pyRound]

theorem pyRound_of_thirtyone : pyRound ((100 : ℚ) / 100 * 31) = 31 := by
  norm_num [pyRound]

theorem pyRound_half : pyRound ((50 : ℚ) / 100 * 31) = 16 := by
  norm_num [pyRound]

/-- C2: on the documented range `0..100` the code's prefix byte agrees
with the spec formula `0b11100000 | (round(brightness*31/100) & 0b00011111)`
(the two differ only in the order of the commutative `|` and in computing
`b/100*31` versus `b*31/100`, equal in exact arithmetic); in particular
`led_prefix 0 = 224`, `led_prefix 100 = 255`, and `led_prefix 50` is the
prefix obtained from `round(15.5)`, which rounds to `16` under Python's
round-half-to-even (agreeing with round-half-away-from-zero at this
boundary), so `led_prefix 50 = 240`. -/
theorem led_prefix_matches_spec_formula (b : ℤ) (h0 : 0 ≤ b) (h1 : b ≤ 100) :
    led_prefix b = spec_prefix_byte b ∧
    led_prefix 0 = 224 ∧
    led_prefix 100 = 255 ∧
    pyRound ((50 : ℚ) / 100 * 31) = 16 ∧
    led_prefix 50 = spec_prefix_byte 50 ∧
    led_prefix 50 = 240 := by
  have harg : ∀ c : ℤ, ((c : ℚ) / 100 * 31) = ((c : ℚ) * 31 / 100) := by
    intro c; ring
  have hgen : ∀ c : ℤ, led_prefix c = spec_prefix_byte c := by
    intro c
    obtain ⟨k, hk, hland⟩ := land_31_bounded (pyRound ((c : ℚ) / 100 * 31))
    simp only [ led_prefix, spec_prefix_byte]
    rw [show (0b00011111 : ℤ) = (31 : ℤ) from rfl,
      show (0b11100000 : ℤ) = Int.ofNat 224 from rfl, ← harg c, hland, int_lor_ofNat,
      show Int.lor (Int.ofNat 224) (Int.ofNat k) = Int.ofNat (224 ||| k) from rfl,
      Nat.or_comm]
  have h0' : led_prefix 0 = 224 := by
    simp only [ led_prefix]
    rw [show (((0 : ℤ) : ℚ) / 100 * 31) = 0 by norm_num, pyRound_zero]
    show Int.lor (Int.land (Int.ofNat 0) (Int.ofNat 31)) (Int.ofNat 224) = Int.ofNat 224
    rw [int_land_ofNat]
    simp only [Nat.zero_and]
    rw [int_lor_ofNat]
    simp only [Nat.zero_or]
  have h100 : led_prefix 100 = 255 := by
    simp only [ led_prefix]
    rw [show (((100 : ℤ) : ℚ) / 100 * 31) = ((100 : ℚ) / 100 * 31) by norm_num,
      pyRound_of_thirtyone]
    show Int.lor (Int.land (Int.ofNat 31) (Int.ofNat 31)) (Int.ofNat 224) = Int.ofNat 255
    rw [int_land_ofNat, Nat.and_self, int_lor_ofNat, nat_or_224 31 (by norm_num)]
  have h50 : led_prefix 50 = 240 := by
    simp only [ led_prefix]
    rw [show (((50 : ℤ) : ℚ) / 100 * 31) = ((50 : ℚ) / 100 * 31) by norm_num,
      pyRound_half]
    show Int.lor (Int.land (Int.ofNat 16) (Int.ofNat 31)) (Int.ofNat 224) = Int.ofNat 240
    rw [int_land_ofNat, nat_and_31 16 (by norm_num), int_lor_ofNat,
      nat_or_224 16 (by norm_num)]
  exact ⟨hgen b, h0', h100, pyRound_half, hgen 50, h50⟩

theorem led_prefix_matches_spec_formula_witness :
    (0 : ℤ) ≤ 50 ∧ (50 : ℤ) ≤ 100 ∧ led_prefix 50 = spec_prefix_byte 50 ∧ led_prefix 50 = 240 :=
  ⟨by norm_num, by norm_num,
    ( led_prefix_matches_spec_formula 50 (by norm_num) (by norm_num)).2.2.2.2.1,
    ( led_prefix_matches_spec_formula 50 (by norm_num) (by norm_num)).2.2.2.2.2⟩

theorem assemble_nil (bb : List ℤ) : assemble_spi_message [] bb = [] := rfl

/-- Unfolding one LED of the assembly loop. -/
theorem assemble_cons (c : ℤ × ℤ × ℤ) (cb : List (ℤ × ℤ × ℤ)) (b : ℤ) (bb : List ℤ) :
    assemble_spi_message (c :: cb) (b :: bb) =
      [ led_prefix b, c.2.2, c.2.1, c.1] ++ assemble_spi_message cb bb := by
  simp only [assemble_spi_message, List.length_cons, List.range_succ_eq_map,
    List.flatMap_cons, List.flatMap_map, List.getD_cons_zero, List.getD_cons_succ,
    List.cons_append, List.nil_append]

theorem assemble_length (cb : List (ℤ × ℤ × ℤ)) (bb : List ℤ) (h : cb.length = bb.length) :
    (assemble_spi_message cb bb).length = 4 * cb.length := by
  induction cb generalizing bb with
  | nil => simp [assemble_nil]
  | cons c cb ih =>
    cases bb with
    | nil => simp at h
    | cons b bb =>
      rw [assemble_cons]
      simp only [List.length_append, List.length_cons, ih bb (by simpa using h)]
      simp
      omega

theorem assemble_group (cb : List (ℤ × ℤ × ℤ)) (bb : List ℤ) (h : cb.length = bb.length)
    (i : ℕ) (hi : i < cb.length) :
    ((assemble_spi_message cb bb).drop (4 * i)).take 4 =
      [ led_prefix (bb.getD i 0), (cb.getD i (0, 0, 0)).2.2,
        (cb.getD i (0, 0, 0)).2.1, (cb.getD i (0, 0, 0)).1] := by
  induction cb generalizing bb i with
  | nil => simp at hi
  | cons c cb ih =>
    cases bb with
    | nil => simp at h
    | cons b bb =>
      rw [assemble_cons]
      cases i with
      | zero =>
        simp only [Nat.mul_zero, List.drop_zero, List.getD_cons_zero]
        exact List.take_left' (by simp)
      | succ i =>
        have h4 : 4 * (i + 1) = 4 * i + 1 + 1 + 1 + 1 := by ring
        rw [h4]
        simp only [List.cons_append, List.nil_append, List.drop_succ_cons,
          List.getD_cons_succ]
        exact ih bb (by simpa using h) i (by simpa using hi)

/-- C1: for same-length buffers the assembled SPI message has exactly
`4 * N` bytes, and the `i`-th 4-byte group is
`[led_prefix(brightness[i]), blue[i], green[i], red[i]]` — blue before
green before red. -/
theorem assemble_spi_message_layout (cb : List (ℤ × ℤ × ℤ)) (bb : List ℤ)
    (h : cb.length = bb.length) :
    (assemble_spi_message cb bb).length = 4 * cb.length ∧
    ∀ i, i < cb.length →
      ((assemble_spi_message cb bb).drop (4 * i)).take 4 =
        [ led_prefix (bb.getD i 0), (cb.getD i (0, 0, 0)).2.2,
          (cb.getD i (0, 0, 0)).2.1, (cb.getD i (0, 0, 0)).1] :=
  ⟨assemble_length cb bb h, fun i hi => assemble_group cb bb h i hi⟩

theorem assemble_spi_message_layout_witness :
    (assemble_spi_message [((1 : ℤ), 2, 3), (4, 5, 6)] [(0 : ℤ), 100]).length = 4 * 2 ∧
    ((assemble_spi_message [((1 : ℤ), 2, 3), (4, 5, 6)] [(0 : ℤ), 100]).drop (4 * 1)).take 4 =
      [ led_prefix 100, 6, 5, 4] := by
  have h := assemble_spi_message_layout [((1 : ℤ), 2, 3), (4, 5, 6)] [(0 : ℤ), 100] rfl
  refine ⟨h.1, ?_⟩
  have h2 := h.2 1 (by norm_num)
  simpa using h2

theorem clock_end_frame_eq (n : ℕ) : clock_end_frame n = List.replicate ((n + 15) / 16) 0 := by
  simp only [clock_end_frame]
  generalize (n + 15) / 16 = k
  induction k with
  | zero => rfl
  | succ k ih =>
    rw [List.range_succ, List.flatMap_append, ih]
    simp [List.replicate_succ']

/-- C3: one `show` call transmits the 4 zero start bytes, the `4 * N`
payload bytes and `ceil(N / 16)` zero end-padding bytes, so the full
frame has `4 + 4*N + ceil(N/16)` bytes; `(N + 15) / 16` is the nat-division
rendering of `ceil(N / 16)` (characterized by `N ≤ 16*L < N + 16`), and
the boundary cases give 1 byte at `N = 16` and 2 bytes at `N = 17`. -/
theorem show_frame_length (st : StripState) (h1 : 1 ≤ st.num_leds) (h2 : st.num_leds ≤ 1024)
    (hc : st.color_buffer.length = st.num_leds)
    (hb : st.brightness_buffer.length = st.num_leds) :
    ((«show» st).2).take 4 = [0, 0, 0, 0] ∧
    ((«show» st).2).length = 4 + 4 * st.num_leds + (st.num_leds + 15) / 16 ∧
    (clock_end_frame st.num_leds).length = (st.num_leds + 15) / 16 ∧
    st.num_leds ≤ 16 * ((st.num_leds + 15) / 16) ∧
    16 * ((st.num_leds + 15) / 16) < st.num_leds + 16 ∧
    (clock_end_frame 16).length = 1 ∧
    (clock_end_frame 17).length = 2 := by
  have hassem := assemble_length st.color_buffer st.brightness_buffer (by rw [hc, hb])
  refine ⟨?_, ?_, ?_, by omega, by omega, by rw [clock_end_frame_eq]; rfl,
    by rw [clock_end_frame_eq]; rfl⟩
  · show (clock_start_frame ++ _).take 4 = [0, 0, 0, 0]
    exact List.take_left' rfl
  · show (clock_start_frame ++ _ ++ _).length = _
    simp only [List.length_append, clock_start_frame, List.length_replicate, hassem,
      clock_end_frame_eq, hc]
  · rw [clock_end_frame_eq]; simp

theorem show_frame_length_witness :
    ((«show» ⟨List.replicate 17 (0, 0, 0), List.replicate 17 0, 17⟩).2).length =
      4 + 4 * 17 + (17 + 15) / 16 ∧
    (clock_end_frame 17).length = 2 := by
  have h := show_frame_length ⟨List.replicate 17 (0, 0, 0), List.replicate 17 0, 17⟩
    (by norm_num) (by norm_num) (by simp) (by simp)
  exact ⟨h.2.1, h.2.2.2.2.2.2⟩

/-- C6: driver initialization succeeds for every strip of at most 1024
LEDs, and fails — with the 1024-LED ConfigurationError and before any bus
I/O (the performed-operations list is empty) — exactly when `num_leds`
exceeds 1024, e.g. at 1025. -/
theorem initialize_strip_connection_limit :
    (∀ n hz, 1 ≤ n → n ≤ 1024 → (initialize_strip_connection n hz).2 = none) ∧
    (∀ hz, (initialize_strip_connection 1025 hz).2 =
        some "The APA102 LED driver does not support strips of more than 1024 LEDs" ∧
      (initialize_strip_connection 1025 hz).1 = []) ∧
    (∀ n hz, (initialize_strip_connection n hz).2 ≠ none ↔ 1024 < n) ∧
    (∀ n hz, (initialize_strip_connection n hz).2 ≠ none →
      (initialize_strip_connection n hz).1 = []) := by
  refine ⟨fun n hz hn1 hn2 => ?_, fun hz => ?_, fun n hz => ?_, fun n hz => ?_⟩ <;>
    simp only [initialize_strip_connection] <;> split <;> simp_all <;> omega

theorem initialize_strip_connection_limit_witness :
    (initialize_strip_connection 1024 8000000).2 = none ∧
    (initialize_strip_connection 1025 8000000).2 =
      some "The APA102 LED driver does not support strips of more than 1024 LEDs" ∧
    (initialize_strip_connection 1025 8000000).1 = [] :=
  ⟨initialize_strip_connection_limit.1 1024 8000000 (by norm_num) (by norm_num),
    (initialize_strip_connection_limit.2.1 8000000).1,
    (initialize_strip_connection_limit.2.1 8000000).2⟩

/-- C9: `show` neither consumes nor mutates the Frame Buffer, so two
successive calls with the buffer unmodified in between transmit
byte-identical wire frames; more generally the transmitted frame is a
function of the buffers and the LED count alone. -/
theorem show_deterministic (st : StripState) :
    («show» st).1 = st ∧
    («show» ((«show» st).1)).2 = («show» st).2 ∧
    ∀ st' : StripState, st'.color_buffer = st.color_buffer →
      st'.brightness_buffer = st.brightness_buffer → st'.num_leds = st.num_leds →
      («show» st').2 = («show» st).2 := by
  refine ⟨rfl, rfl, fun st' h1 h2 h3 => ?_⟩
  simp only [«show», h1, h2, h3]

theorem show_deterministic_witness :
    («show» (⟨[((255 : ℤ), 0, 0)], [(50 : ℤ)], 1⟩ : StripState)).1 =
      (⟨[((255 : ℤ), 0, 0)], [(50 : ℤ)], 1⟩ : StripState) ∧
    («show» ((«show» (⟨[((255 : ℤ), 0, 0)], [(50 : ℤ)], 1⟩ : StripState)).1)).2 =
      («show» (⟨[((255 : ℤ), 0, 0)], [(50 : ℤ)], 1⟩ : StripState)).2 :=
  ⟨(show_deterministic ⟨[((255 : ℤ), 0, 0)], [(50 : ℤ)], 1⟩).1,
    (show_deterministic ⟨[((255 : ℤ), 0, 0)], [(50 : ℤ)], 1⟩).2.1⟩

end APA102

namespace ColorCycle

theorem runSteps_ok (update_hook : ℕ → ℕ → Except String Bool)
    (hok : ∀ s c, ∃ v, update_hook s c = Except.ok v) (c : ℕ) (l : List ℕ) :
    (runSteps update_hook c l).2 = none ∧
    updatesOf (runSteps update_hook c l).1 = l.map fun s => (s, c) := by
  induction l with
  | nil => exact ⟨rfl, rfl⟩
  | cons s rest ih =>
    obtain ⟨v, hv⟩ := hok s c
    simp only [runSteps, hv]
    refine ⟨ih.1, ?_⟩
    cases v <;> simp [updatesOf, ih.2.symm, List.map_cons]

theorem runSteps_no_cleanup (update_hook : ℕ → ℕ → Except String Bool) (c : ℕ) (l : List ℕ) :
    Event.shutdown ∉ (runSteps update_hook c l).1 ∧
    Event.sync_up ∉ (runSteps update_hook c l).1 := by
  induction l with
  | nil => simp [runSteps]
  | cons s rest ih =>
    cases hv : update_hook s c with
    | error e => simp [runSteps, hv]
    | ok v => cases v <;> simp_all [runSteps, hv]

theorem updatesOf_append (l1 l2 : List Event) :
    updatesOf (l1 ++ l2) = updatesOf l1 ++ updatesOf l2 := by
  simp [updatesOf]

theorem runLoop_full_cycles (update_hook : ℕ → ℕ → Except String Bool)
    (S nc : ℕ) (stop_show : ℕ → Bool)
    (hok : ∀ s c, ∃ v, update_hook s c = Except.ok v) :
    ∀ cyc, ∃ k, 1 ≤ k ∧ (runLoop update_hook S nc stop_show cyc).2 = none ∧
      updatesOf (runLoop update_hook S nc stop_show cyc).1 =
        (List.range k).flatMap fun j => (List.range S).map fun s => (s, cyc + j) := by
  intro cyc
  induction cyc using runLoop.induct update_hook S nc stop_show with
  | case1 x evs e hsteps =>
    have h := (runSteps_ok update_hook hok x (List.range S)).1
    rw [hsteps] at h
    simp at h
  | case2 x evs hsteps hcond =>
    refine ⟨1, le_refl 1, ?_, ?_⟩ <;> rw [runLoop, hsteps] <;>
      simp only [dif_pos hcond]
    have h := (runSteps_ok update_hook hok x (List.range S)).2
    rw [hsteps] at h
    simp only [h]
    simp [List.range_succ]
  | case3 x evs hsteps hcond ih =>
    obtain ⟨k, hk1, hkend, hkupd⟩ := ih
    refine ⟨k + 1, by omega, ?_, ?_⟩ <;> rw [runLoop, hsteps] <;>
      simp only [dif_neg hcond]
    · exact hkend
    · have h := (runSteps_ok update_hook hok x (List.range S)).2
      rw [hsteps] at h
      simp only at h
      rw [updatesOf_append, h, hkupd, List.range_succ_eq_map, List.flatMap_cons,
        List.flatMap_map]
      congr 1 <;> simp [Nat.add_assoc, Nat.add_comm 1]

theorem updatesOf_nil : updatesOf [] = [] := rfl
theorem updatesOf_cons_before_start (l : List Event) :
    updatesOf (Event.before_start :: l) = updatesOf l := rfl
theorem updatesOf_cons_strip_show (l : List Event) :
    updatesOf (Event.strip_show :: l) = updatesOf l := rfl
theorem updatesOf_cons_shutdown (l : List Event) :
    updatesOf (Event.shutdown :: l) = updatesOf l := rfl
theorem updatesOf_cons_sync_up (l : List Event) :
    updatesOf (Event.sync_up :: l) = updatesOf l := rfl
theorem updatesOf_cons_update (s c : ℕ) (l : List Event) :
    updatesOf (Event.update s c :: l) = (s, c) :: updatesOf l := rfl

theorem runLoop_no_cleanup (update_hook : ℕ → ℕ → Except String Bool)
    (S nc : ℕ) (stop_show : ℕ → Bool) : ∀ cyc,
    Event.shutdown ∉ (runLoop update_hook S nc stop_show cyc).1 ∧
    Event.sync_up ∉ (runLoop update_hook S nc stop_show cyc).1 := by
  intro cyc
  induction cyc using runLoop.induct update_hook S nc stop_show with
  | case1 x evs e hsteps =>
    have h := runSteps_no_cleanup update_hook x (List.range S)
    rw [hsteps] at h
    rw [runLoop, hsteps]
    simpa using h
  | case2 x evs hsteps hcond =>
    have h := runSteps_no_cleanup update_hook x (List.range S)
    rw [hsteps] at h
    rw [runLoop, hsteps]
    simpa [dif_pos hcond] using h
  | case3 x evs hsteps hcond ih =>
    have h := runSteps_no_cleanup update_hook x (List.range S)
    rw [hsteps] at h
    rw [runLoop, hsteps]
    simp only [dif_neg hcond]
    simp_all [List.mem_append]

/-- C4: with `num_steps_per_cycle = 3`, `num_cycles = 2` and no stop
request (and any repaint behaviour of the hook; `pause_sec` does not
influence the call sequence), `run` invokes the update hook exactly 6
times with `(step, cycle)` arguments
`(0,0), (1,0), (2,0), (0,1), (1,1), (2,1)` in that order, and the loop
terminates normally after the 6th call with no 7th invocation. -/
theorem run_update_call_sequence (repaint : ℕ → ℕ → Bool) :
    updatesOf (run (fun s c => Except.ok (repaint s c)) 3 2 fun _ => false).1 =
      [(0, 0), (1, 0), (2, 0), (0, 1), (1, 1), (2, 1)] ∧
    (updatesOf (run (fun s c => Except.ok (repaint s c)) 3 2 fun _ => false).1).length = 6 ∧
    (run (fun s c => Except.ok (repaint s c)) 3 2 fun _ => false).2 = none := by
  have hok : ∀ s c, ∃ v,
      (fun s c => (Except.ok (repaint s c) : Except String Bool)) s c = Except.ok v :=
    fun s c => ⟨repaint s c, rfl⟩
  have h0 := runSteps_ok (fun s c => Except.ok (repaint s c)) hok 0 (List.range 3)
  have h1 := runSteps_ok (fun s c => Except.ok (repaint s c)) hok 1 (List.range 3)
  have e0 : runSteps (fun s c => Except.ok (repaint s c)) 0 (List.range 3) =
      ((runSteps (fun s c => Except.ok (repaint s c)) 0 (List.range 3)).1, none) := by
    rw [← h0.1]
  have e1 : runSteps (fun s c => Except.ok (repaint s c)) 1 (List.range 3) =
      ((runSteps (fun s c => Except.ok (repaint s c)) 1 (List.range 3)).1, none) := by
    rw [← h1.1]
  have hL1 : runLoop (fun s c => Except.ok (repaint s c)) 3 2 (fun _ => false) 1 =
      ((runSteps (fun s c => Except.ok (repaint s c)) 1 (List.range 3)).1, none) := by
    rw [runLoop, e1]
    simp
  have hL0 : runLoop (fun s c => Except.ok (repaint s c)) 3 2 (fun _ => false) 0 =
      ((runSteps (fun s c => Except.ok (repaint s c)) 0 (List.range 3)).1 ++
        (runSteps (fun s c => Except.ok (repaint s c)) 1 (List.range 3)).1, none) := by
    rw [runLoop, e0]
    simp [hL1]
  have hrun : run (fun s c => Except.ok (repaint s c)) 3 2 (fun _ => false) =
      (Event.before_start :: Event.strip_show ::
        (((runSteps (fun s c => Except.ok (repaint s c)) 0 (List.range 3)).1 ++
          (runSteps (fun s c => Except.ok (repaint s c)) 1 (List.range 3)).1) ++
            [Event.shutdown, Event.sync_up]), none) := by
    simp only [run, hL0]
  rw [hrun]
  simp only [updatesOf_cons_before_start, updatesOf_cons_strip_show, updatesOf_append,
    updatesOf_cons_shutdown, updatesOf_cons_sync_up, updatesOf_nil, h0.2, h1.2]
  refine ⟨?_, ?_, by trivial⟩ <;>
    simp [show List.range 3 = [0, 1, 2] from rfl]

/-- C5: for every stop-flag history — in particular one raised at any
point during cycle 0 — the update-call trace of `run` starts with all `S`
steps of cycle 0, and is in fact a concatenation of whole cycles
(`k ≥ 1` of them): the stop flag is consulted only at the cycle boundary
after a cycle's last step, so a stop request can never cut a cycle
short. -/
theorem stop_checked_at_cycle_boundary (S nc : ℕ) (stop_show : ℕ → Bool)
    (update_hook : ℕ → ℕ → Except String Bool)
    (hok : ∀ s c, ∃ v, update_hook s c = Except.ok v) :
    (updatesOf (run update_hook S nc stop_show).1).take S =
      (List.range S).map (fun s => (s, 0)) ∧
    ∃ k, 1 ≤ k ∧ updatesOf (run update_hook S nc stop_show).1 =
      (List.range k).flatMap fun c => (List.range S).map fun s => (s, c) := by
  obtain ⟨k, hk1, hkend, hkupd⟩ := runLoop_full_cycles update_hook S nc stop_show hok 0
  have hkupd' : updatesOf (runLoop update_hook S nc stop_show 0).1 =
      (List.range k).flatMap fun c => (List.range S).map fun s => (s, c) := by
    simpa using hkupd
  have hrun : (run update_hook S nc stop_show).1 =
      Event.before_start :: Event.strip_show ::
        ((runLoop update_hook S nc stop_show 0).1 ++ [Event.shutdown, Event.sync_up]) := by
    simp only [run]
    rw [hkend]
  rw [hrun]
  simp only [updatesOf_cons_before_start, updatesOf_cons_strip_show, updatesOf_append,
    updatesOf_cons_shutdown, updatesOf_cons_sync_up, updatesOf_nil, List.append_nil, hkupd']
  refine ⟨?_, k, hk1, rfl⟩
  obtain ⟨k', rfl⟩ : ∃ k', k = k' + 1 := ⟨k - 1, by omega⟩
  rw [List.range_succ_eq_map, List.flatMap_cons]
  exact List.take_left' (by simp)

/-- C8: whenever `run` terminates with a propagated update-hook
exception (the only exception source in the loop), its event trace
contains neither the `shutdown` hook call nor the final
`strip.sync_up()` flush: the cleanup path runs only on normal loop
exit. -/
theorem update_exception_skips_cleanup (update_hook : ℕ → ℕ → Except String Bool)
    (S nc : ℕ) (stop_show : ℕ → Bool) (e : String)
    (herr : (run update_hook S nc stop_show).2 = some e) :
    Event.shutdown ∉ (run update_hook S nc stop_show).1 ∧
    Event.sync_up ∉ (run update_hook S nc stop_show).1 := by
  have hnc := runLoop_no_cleanup update_hook S nc stop_show 0
  cases hr : (runLoop update_hook S nc stop_show 0).2 with
  | none =>
    simp only [run] at herr
    rw [hr] at herr
    simp at herr
  | some e' =>
    have h1 : (run update_hook S nc stop_show).1 =
        Event.before_start :: Event.strip_show :: (runLoop update_hook S nc stop_show 0).1 := by
      simp only [run]
      rw [hr]
    rw [h1]
    simp [hnc.1, hnc.2]

theorem update_exception_skips_cleanup_witness :
    Event.shutdown ∉
      (run (fun s _ => if s = 1 then Except.error "boom" else Except.ok true) 3 2
        fun _ => false).1 ∧
    Event.sync_up ∉
      (run (fun s _ => if s = 1 then Except.error "boom" else Except.ok true) 3 2
        fun _ => false).1 :=
  update_exception_skips_cleanup _ 3 2 _ "boom"
    (by simp [run, runLoop, runSteps, show List.range 3 = [0, 1, 2] from rfl])

end ColorCycle

namespace ColorCycle

theorem stop_checked_at_cycle_boundary_witness :
    (updatesOf (run (fun _ _ => Except.ok true) 2 3 fun _ => true).1).take 2 =
      (List.range 2).map (fun s => (s, 0)) ∧
    ∃ k, 1 ≤ k ∧ updatesOf (run (fun _ _ => Except.ok true) 2 3 fun _ => true).1 =
      (List.range k).flatMap fun c => (List.range 2).map fun s => (s, c) :=
  stop_checked_at_cycle_boundary 2 3 (fun _ => true) (fun _ _ => Except.ok true)
    (fun _ _ => ⟨true, rfl⟩)

/-- C7: `check_runnable` fails with an InvalidParameters error naming the
missing field whenever `pause_sec`, `num_steps_per_cycle` or `num_cycles`
is unset (checked in that order), succeeds when all three are set, and
`set_parameter` with an unrecognized parameter name fails with
`InvalidParameters.unknown` naming that parameter (the error message
contains the parameter name as a substring, witnessed by an explicit
decomposition). -/
theorem check_runnable_missing_and_unknown_param :
    (∀ p : Params, p.pause_sec = none →
      check_runnable p = Except.error "Missing parameter \"pause_sec\"!") ∧
    (∀ p : Params, p.pause_sec ≠ none → p.num_steps_per_cycle = none →
      check_runnable p = Except.error "Missing parameter \"num_steps_per_cycle\"!") ∧
    (∀ p : Params, p.pause_sec ≠ none → p.num_steps_per_cycle ≠ none →
      p.num_cycles = none →
      check_runnable p = Except.error "Missing parameter \"num_cycles\"!") ∧
    (∀ p : Params, p.pause_sec ≠ none → p.num_steps_per_cycle ≠ none →
      p.num_cycles ≠ none → check_runnable p = Except.ok ()) ∧
    (∀ (p : Params) (name : String) (v : PyVal),
      name ≠ "pause_sec" → name ≠ "num_steps_per_cycle" → name ≠ "num_cycles" →
      set_parameter p name v = Except.error (InvalidParameters_unknown name)) ∧
    (∀ name : String, ∃ pre post : String,
      InvalidParameters_unknown name = pre ++ name ++ post) := by
  refine ⟨fun p h => ?_, fun p h1 h2 => ?_, fun p h1 h2 h3 => ?_, fun p h1 h2 h3 => ?_,
    fun p name v h1 h2 h3 => ?_, fun name => ⟨"Unknown parameter \"", "\"", rfl⟩⟩
  · simp [check_runnable, h]
  · simp [check_runnable, h1, h2]
  · simp [check_runnable, h1, h2, h3]
  · simp [check_runnable, h1, h2, h3]
  · simp [set_parameter, h1, h2, h3]

theorem check_runnable_missing_and_unknown_param_witness :
    check_runnable init_parameters =
      Except.error "Missing parameter \"num_steps_per_cycle\"!" ∧
    set_parameter init_parameters "velocity" (PyVal.int 3) =
      Except.error (InvalidParameters_unknown "velocity") :=
  ⟨check_runnable_missing_and_unknown_param.2.1 init_parameters (by simp [init_parameters])
      (by simp [init_parameters]),
    check_runnable_missing_and_unknown_param.2.2.2.2.1 init_parameters "velocity"
      (PyVal.int 3) (by simp) (by simp) (by simp)⟩

end ColorCycle
